import Mathlib

/-! Verification of the backlink-discovery pipeline of the google-scrapper
repository.  The JavaScript sources are shallowly embedded: network calls
(`axios.get`, the Google CSE client) become explicit oracle functions passed
as parameters, HTML pages become their parsed anchor lists, and thrown
exceptions become `Except` / explicit error branches, exactly mirroring the
`try`/`catch` structure of the source.
-/

namespace GoogleScrapper

/-! ### String helpers

`chStarts needle hay` models "hay starts with needle" and `strContains`
models JavaScript `String.prototype.includes` (substring containment),
both written over the character lists of the strings. -/

def chStarts : List Char → List Char → Bool
  | [], _ => true
  | _ :: _, [] => false
  | a :: as, b :: bs => a == b && chStarts as bs

def chHasSub (needle : List Char) : List Char → Bool
  | [] => chStarts needle []
  | b :: bs => chStarts needle (b :: bs) || chHasSub needle bs

def strContains (hay needle : String) : Bool :=
  chHasSub needle.toList hay.toList

/-- JavaScript `String.prototype.trim`, over the character list. -/
def trimChars (l : List Char) : List Char :=
  ((l.dropWhile Char.isWhitespace).reverse.dropWhile Char.isWhitespace).reverse

def strTrim (s : String) : String := (trimChars s.toList).asString

/-- JavaScript `String.prototype.toLowerCase`, over the character list. -/
def strLower (s : String) : String := (s.toList.map Char.toLower).asString

/-- Models the scheme-stripping replace (regex caret-https?-colon-slashes) of `verifyBacklinks`. -/
def stripScheme (s : String) : String :=
  if chStarts "https://".toList s.toList then ((s.toList).drop 8).asString
  else if chStarts "http://".toList s.toList then ((s.toList).drop 7).asString
  else s

/-- Models the trailing-slash replace: remove a single trailing slash. -/
def stripTrailingSlash (s : String) : String :=
  match s.toList.reverse with
  | '/' :: rest => rest.reverse.asString
  | _ => s

/-- Models the path-stripping replace: drop everything from the first slash on. -/
def dropFromSlash (s : String) : String :=
  (s.toList.takeWhile (fun c => c ≠ '/')).asString

/-- The `targetDomain` computation at the top of `verifyBacklinks`: the
three replaces stripping the scheme, one trailing slash, and everything
from the first remaining slash. -/
def bareHost (targetUrl : String) : String :=
  dropFromSlash (stripTrailingSlash (stripScheme targetUrl))

/-! ### Data model of the backlink verifier (src `backlinkFinder.js`) -/

/-- A backlink record as produced by `findBacklinksForUrl`:
`{sourceUrl, sourceTitle, targetUrl, snippet}`. -/
structure Backlink where
  sourceUrl : String
  sourceTitle : String
  targetUrl : String
  snippet : String
deriving DecidableEq

/-- One `<a>` element of a fetched page, as cheerio sees it: an optional
`href` attribute, an optional `rel` attribute and the element text. -/
structure Anchor where
  href : Option String
  rel : Option String
  text : String
deriving DecidableEq

/-- A successful `axios.get`: the HTTP status and the parsed page reduced to
its anchor list (the only part of the DOM `verifyBacklinks` inspects). -/
structure FetchPage where
  status : Nat
  anchors : List Anchor
deriving DecidableEq

/-- A thrown fetch error: `error.message` and `error.response?.status`. -/
structure FetchFailure where
  message : String
  responseStatus : Option Nat
deriving DecidableEq

inductive FetchOutcome where
  | ok (page : FetchPage)
  | err (e : FetchFailure)
deriving DecidableEq

/-- The page-fetch oracle: what `axios.get(url, ...)` does for each url. -/
def Fetcher := String → FetchOutcome

/-- One element of the `links` array collected by `verifyBacklinks`. -/
structure LinkRecord where
  href : String
  anchorText : String
  isNofollow : Bool
deriving DecidableEq

/-- The record `verifyBacklinks` produces for one backlink.  `links` is an
`Option` because the catch branch of the source builds its object without a
`links` key at all (the field is `undefined` there), while both success
branches always set it. -/
structure VerifiedBacklink where
  source : Backlink
  verified : Bool
  links : Option (List LinkRecord)
  statusCode : Nat
  error : Option String
deriving DecidableEq

/-- The nofollow test: rel attribute present and containing "nofollow", else false. -/
def anchorNofollow (a : Anchor) : Bool :=
  match a.rel with
  | some r => strContains r "nofollow"
  | none => false

/-- The cheerio selection loop over the selector a-href-contains-domain:
it collects href, anchor text and the nofollow flag for every anchor whose
`href` attribute contains the target domain as a substring. -/
def matchLinks (host : String) (anchors : List Anchor) : List LinkRecord :=
  anchors.filterMap fun a =>
    match a.href with
    | none => none
    | some h =>
      if strContains h host then
        some { href := h, anchorText := strTrim a.text, isNofollow := anchorNofollow a }
      else none

/-- The per-backlink closure inside `verifyBacklinks`: fetch the source page;
on success collect matching links and set `verified` from whether any were
found; on a thrown error build the degraded record of the catch branch. -/
def verifyOne (fetch : Fetcher) (host : String) (b : Backlink) : VerifiedBacklink :=
  match fetch b.sourceUrl with
  | .ok page =>
    let links := matchLinks host page.anchors
    if 0 < links.length then
      { source := b, verified := true, links := some links,
        statusCode := page.status, error := none }
    else
      { source := b, verified := false, links := some [],
        statusCode := page.status, error := none }
  | .err e =>
    { source := b, verified := false, links := none,
      statusCode := e.responseStatus.getD 0, error := some e.message }

/-- The batching loop of `verifyBacklinks`
(`for (let i = 0; i < backlinks.length; i += maxConcurrent)`): process the
input in consecutive windows of `c`, appending the results of each window in input
order.  The second component is the trace of urls fetched, in fetch order.
`fuel` bounds the number of iterations; `backlinks.length` iterations always
suffice when `1 ≤ c` (the source default is `maxConcurrent = 5`). -/
def verifyLoop (fetch : Fetcher) (host : String) (c : Nat) :
    Nat → List Backlink → List VerifiedBacklink × List String
  | 0, _ => ([], [])
  | _ + 1, [] => ([], [])
  | fuel + 1, b :: bs =>
    let batch := (b :: bs).take c
    let rest := verifyLoop fetch host c fuel ((b :: bs).drop c)
    (batch.map (verifyOne fetch host) ++ rest.1,
     batch.map (fun x => x.sourceUrl) ++ rest.2)

/-- The function `verifyBacklinks(backlinks, targetUrl, maxConcurrent)`.  Returns the
verified records together with the trace of page fetches performed. -/
def verifyBacklinks (fetch : Fetcher) (backlinks : List Backlink)
    (targetUrl : String) (maxConcurrent : Nat) :
    List VerifiedBacklink × List String :=
  verifyLoop fetch (bareHost targetUrl) maxConcurrent backlinks.length backlinks

theorem verifyLoop_eq_map (fetch : Fetcher) (host : String) (c : Nat)
    (hc : 1 ≤ c) :
    ∀ (fuel : Nat) (bs : List Backlink), bs.length ≤ fuel →
      verifyLoop fetch host c fuel bs =
        (bs.map (verifyOne fetch host), bs.map (fun x => x.sourceUrl)) := by
  intro fuel
  induction fuel with
  | zero =>
    intro bs hbs
    have : bs = [] := List.length_eq_zero.mp (Nat.le_zero.mp hbs)
    subst this
    rfl
  | succ n ih =>
    intro bs hbs
    match bs with
    | [] => rfl
    | b :: rest =>
      have hdrop : ((b :: rest).drop c).length ≤ n := by
        rw [List.length_drop]
        have : (b :: rest).length ≤ n + 1 := hbs
        omega
      have hrec := ih ((b :: rest).drop c) hdrop
      simp only [verifyLoop, hrec]
      rw [← List.map_append, List.take_append_drop,
        ← List.map_append (fun x : Backlink => x.sourceUrl), List.take_append_drop]

theorem verifyBacklinks_eq_map (fetch : Fetcher) (bs : List Backlink)
    (t : String) (c : Nat) (hc : 1 ≤ c) :
    verifyBacklinks fetch bs t c =
      (bs.map (verifyOne fetch (bareHost t)), bs.map (fun x => x.sourceUrl)) :=
  verifyLoop_eq_map fetch (bareHost t) c hc bs.length bs (Nat.le_refl _)

theorem verifyOne_source (fetch : Fetcher) (host : String) (b : Backlink) :
    (verifyOne fetch host b).source = b := by
  unfold verifyOne
  cases fetch b.sourceUrl with
  | ok page => dsimp only; split <;> rfl
  | err e => rfl

/-! ### The Search Client (src `lib/googleSearch.js`) -/

/-- A raw item of a CSE API response (the fields `searchGoogle` reads). -/
structure CseItem where
  title : String
  link : String
  snippet : String
  displayLink : String
deriving DecidableEq

/-- A formatted search result, as built by the final `map` of `searchGoogle`. -/
structure SearchResult where
  title : String
  link : String
  snippet : String
  displayLink : String
deriving DecidableEq

def formatItem (it : CseItem) : SearchResult :=
  { title := it.title, link := it.link, snippet := it.snippet,
    displayLink := it.displayLink }

/-- The CSE oracle: `customsearch.cse.list({q, start, num})` — query, start
index and requested page size map to the returned items or a thrown error. -/
def CseApi (ε : Type) := String → Nat → Nat → Except ε (List CseItem)

/-- The log of one page call: the `start` and `num` sent, and the items the
API answered with. -/
structure CallLog where
  start : Nat
  num : Nat
  items : List CseItem
deriving DecidableEq

/-- The paging loop of `searchGoogle`: `fuel` is the remaining number of
iterations (`numCalls = Math.ceil(numResults / 10)` at the top call), `i` the
call index, `acc` the `allResults` accumulator.  Each iteration requests
`num = min(10, numResults - allResults.length)` at `start = i*10 + 1`,
appends a non-empty page and breaks on an empty one.  Also returns the log of
calls made. -/
def searchPages {ε : Type} (api : CseApi ε) (q : String) (numResults : Nat) :
    Nat → Nat → List CseItem → Except ε (List CseItem × List CallLog)
  | 0, _, acc => .ok (acc, [])
  | fuel + 1, i, acc =>
    let start := i * 10 + 1
    let num := min 10 (numResults - acc.length)
    match api q start num with
    | .error e => .error e
    | .ok items =>
      if 0 < items.length then
        match searchPages api q numResults fuel (i + 1) (acc ++ items) with
        | .error e => .error e
        | .ok (all, logs) => .ok (all, ⟨start, num, items⟩ :: logs)
      else .ok (acc, [⟨start, num, items⟩])

/-- The function `searchGoogle(keywords, numResults)`, instrumented with the call log. -/
def searchGoogleLogs {ε : Type} (api : CseApi ε) (q : String) (numResults : Nat) :
    Except ε (List SearchResult × List CallLog) :=
  match searchPages api q numResults ((numResults + 9) / 10) 0 [] with
  | .error e => .error e
  | .ok (all, logs) => .ok (all.map formatItem, logs)

/-- The function `searchGoogle(keywords, numResults)` as the callers see it. -/
def searchGoogle {ε : Type} (api : CseApi ε) (q : String) (numResults : Nat) :
    Except ε (List SearchResult) :=
  match searchGoogleLogs api q numResults with
  | .error e => .error e
  | .ok (res, _) => .ok res

theorem searchPages_spec {ε : Type} (api : CseApi ε) (q : String) (N : Nat) :
    ∀ (fuel i : Nat) (acc all : List CseItem) (logs : List CallLog),
      searchPages api q N fuel i acc = Except.ok (all, logs) →
      all = acc ++ (logs.map CallLog.items).flatten ∧
      logs.length ≤ fuel ∧
      (logs.length < fuel → ∃ l, logs.getLast? = some l ∧ l.items = []) ∧
      (∀ k (hk : k < logs.length),
        (logs.get ⟨k, hk⟩).start = (i + k) * 10 + 1 ∧
        (logs.get ⟨k, hk⟩).num =
          min 10 (N - (acc.length + ((logs.take k).map CallLog.items).flatten.length))) := by
  intro fuel
  induction fuel with
  | zero =>
    intro i acc all logs h
    simp only [searchPages, Except.ok.injEq, Prod.mk.injEq] at h
    obtain ⟨rfl, rfl⟩ := h
    simp
  | succ fuel ih =>
    intro i acc all logs h
    simp only [searchPages] at h
    cases hapi : api q (i * 10 + 1) (min 10 (N - acc.length)) with
    | error e =>
      rw [hapi] at h
      exact Except.noConfusion h
    | ok items =>
      simp only [hapi] at h
      by_cases hlen : 0 < items.length
      · rw [if_pos hlen] at h
        cases hrec : searchPages api q N fuel (i + 1) (acc ++ items) with
        | error e => rw [hrec] at h; cases h
        | ok p =>
          obtain ⟨all', logs'⟩ := p
          rw [hrec] at h
          simp only [Except.ok.injEq, Prod.mk.injEq] at h
          obtain ⟨rfl, rfl⟩ := h
          obtain ⟨ha, hl, he, hk⟩ := ih (i + 1) (acc ++ items) all' logs' hrec
          refine ⟨?_, ?_, ?_, ?_⟩
          · rw [ha]; simp
          · simpa using Nat.succ_le_succ hl
          · intro hlt
            have hlt' : logs'.length < fuel := by
              simpa using Nat.lt_of_succ_lt_succ hlt
            obtain ⟨l, hlast, hempty⟩ := he hlt'
            refine ⟨l, ?_, hempty⟩
            cases logs' with
            | nil => simp at hlast
            | cons a as => rw [List.getLast?_cons_cons]; exact hlast
          · intro k hk'
            cases k with
            | zero => exact ⟨by simp, by simp⟩
            | succ k' =>
              have hk'' : k' < logs'.length := by
                simpa using Nat.lt_of_succ_lt_succ hk'
              obtain ⟨hs, hn⟩ := hk k' hk''
              constructor
              · rw [show (⟨i * 10 + 1, min 10 (N - acc.length), items⟩ :: logs').get
                    ⟨k' + 1, hk'⟩ = logs'.get ⟨k', hk''⟩ from rfl, hs]
                ring_nf
              · rw [show (⟨i * 10 + 1, min 10 (N - acc.length), items⟩ :: logs').get
                    ⟨k' + 1, hk'⟩ = logs'.get ⟨k', hk''⟩ from rfl, hn]
                congr 1
                simp only [List.take_succ_cons, List.map_cons, List.flatten_cons,
                  List.length_append]
                omega
      · rw [if_neg hlen] at h
        simp only [Except.ok.injEq, Prod.mk.injEq] at h
        obtain ⟨rfl, rfl⟩ := h
        have hitems : items = [] := by
          cases items with
          | nil => rfl
          | cons a as => simp at hlen
        refine ⟨?_, ?_, ?_, ?_⟩
        · simp [hitems]
        · simp
        · intro _
          exact ⟨⟨i * 10 + 1, min 10 (N - acc.length), items⟩, by simp, hitems⟩
        · intro k hk'
          have hk0 : k = 0 := by simpa using Nat.lt_one_iff.mp (by simpa using hk')
          subst hk0
          exact ⟨by simp, by simp⟩

theorem searchPages_length_le {ε : Type} (api : CseApi ε) (q : String) (N : Nat)
    (hbound : ∀ s n items, api q s n = Except.ok items → items.length ≤ n) :
    ∀ (fuel i : Nat) (acc all : List CseItem) (logs : List CallLog),
      acc.length ≤ N →
      searchPages api q N fuel i acc = Except.ok (all, logs) →
      all.length ≤ N := by
  intro fuel
  induction fuel with
  | zero =>
    intro i acc all logs hacc h
    simp only [searchPages, Except.ok.injEq, Prod.mk.injEq] at h
    obtain ⟨rfl, rfl⟩ := h
    exact hacc
  | succ fuel ih =>
    intro i acc all logs hacc h
    simp only [searchPages] at h
    cases hapi : api q (i * 10 + 1) (min 10 (N - acc.length)) with
    | error e =>
      rw [hapi] at h
      exact Except.noConfusion h
    | ok items =>
      simp only [hapi] at h
      by_cases hlen : 0 < items.length
      · rw [if_pos hlen] at h
        cases hrec : searchPages api q N fuel (i + 1) (acc ++ items) with
        | error e => rw [hrec] at h; cases h
        | ok p =>
          obtain ⟨all', logs'⟩ := p
          rw [hrec] at h
          simp only [Except.ok.injEq, Prod.mk.injEq] at h
          obtain ⟨rfl, rfl⟩ := h
          have hacc' : (acc ++ items).length ≤ N := by
            have hi := hbound (i * 10 + 1) (min 10 (N - acc.length)) items hapi
            have hmin := Nat.min_le_right 10 (N - acc.length)
            simp only [List.length_append]
            omega
          exact ih (i + 1) (acc ++ items) all' logs' hacc' hrec
      · rw [if_neg hlen] at h
        simp only [Except.ok.injEq, Prod.mk.injEq] at h
        obtain ⟨rfl, rfl⟩ := h
        exact hacc

theorem searchGoogleLogs_spec {ε : Type} (api : CseApi ε) (q : String) (N : Nat)
    (hbound : ∀ s n items, api q s n = Except.ok items → items.length ≤ n)
    (res : List SearchResult) (logs : List CallLog)
    (hok : searchGoogleLogs api q N = Except.ok (res, logs)) :
    res.length ≤ N ∧
    res = ((logs.map CallLog.items).flatten).map formatItem ∧
    (∀ k (hk : k < logs.length),
      (logs.get ⟨k, hk⟩).start = k * 10 + 1 ∧
      (logs.get ⟨k, hk⟩).num =
        min 10 (N - ((logs.take k).map CallLog.items).flatten.length)) ∧
    (logs.length = (N + 9) / 10 ∨ ∃ l, logs.getLast? = some l ∧ l.items = []) := by
  unfold searchGoogleLogs at hok
  cases hsp : searchPages api q N ((N + 9) / 10) 0 [] with
  | error e =>
    rw [hsp] at hok
    exact Except.noConfusion hok
  | ok p =>
    obtain ⟨all, logs0⟩ := p
    rw [hsp] at hok
    simp only [Except.ok.injEq, Prod.mk.injEq] at hok
    obtain ⟨rfl, rfl⟩ := hok
    obtain ⟨ha, hl, he, hk⟩ :=
      searchPages_spec api q N ((N + 9) / 10) 0 [] all logs0 hsp
    have hlen :=
      searchPages_length_le api q N hbound ((N + 9) / 10) 0 [] all logs0
        (by simp) hsp
    refine ⟨by simpa using hlen, by rw [ha]; simp, ?_, ?_⟩
    · intro k hk'
      obtain ⟨hs, hn⟩ := hk k hk'
      exact ⟨by simpa using hs, by simpa using hn⟩
    · rcases Nat.lt_or_ge logs0.length ((N + 9) / 10) with hlt | hge
      · exact Or.inr (he hlt)
      · exact Or.inl (Nat.le_antisymm hl hge)

/-! ### The backlink finder (src `backlinkFinder.js`) -/

/-- The JavaScript Set-spread `[...new Set(domains)]`: keep only the first occurrence of each element, in insertion order.  `seen` is the state of the set. -/
def setDedup : List String → List String → List String
  | _, [] => []
  | seen, x :: xs =>
    if x ∈ seen then setDedup seen xs else x :: setDedup (x :: seen) xs

/-- The function `getUniqueReferringDomains(backlinks)`: parse each `sourceUrl` with the
URL constructor of the host environment (the oracle `parseHost`, `none` modelling a
thrown `TypeError` that the source catches and turns into `null`), drop the
failures, and spread through a `Set`. -/
def getUniqueReferringDomains (parseHost : String → Option String)
    (backlinks : List Backlink) : List String :=
  setDedup [] (backlinks.filterMap fun b => parseHost b.sourceUrl)

theorem mem_setDedup (x : String) :
    ∀ (seen l : List String), x ∈ setDedup seen l ↔ x ∈ l ∧ x ∉ seen := by
  intro seen l
  induction l generalizing seen with
  | nil => simp [setDedup]
  | cons y ys ih =>
    by_cases hy : y ∈ seen
    · rw [setDedup, if_pos hy, ih]
      constructor
      · rintro ⟨hx, hns⟩
        exact ⟨List.mem_cons_of_mem _ hx, hns⟩
      · rintro ⟨hx, hns⟩
        rcases List.mem_cons.mp hx with rfl | hx'
        · exact absurd hy hns
        · exact ⟨hx', hns⟩
    · rw [setDedup, if_neg hy]
      constructor
      · intro hx
        rcases List.mem_cons.mp hx with rfl | hx'
        · exact ⟨List.mem_cons_self _ _, hy⟩
        · obtain ⟨h1, h2⟩ := (ih (y :: seen)).mp hx'
          exact ⟨List.mem_cons_of_mem _ h1,
            fun hs => h2 (List.mem_cons_of_mem _ hs)⟩
      · rintro ⟨hx, hns⟩
        rcases List.mem_cons.mp hx with rfl | hx'
        · exact List.mem_cons_self _ _
        · by_cases hxy : x = y
          · subst hxy; exact List.mem_cons_self _ _
          · exact List.mem_cons_of_mem _ ((ih (y :: seen)).mpr
              ⟨hx', by simp [hxy, hns]⟩)

theorem nodup_setDedup : ∀ (seen l : List String), (setDedup seen l).Nodup := by
  intro seen l
  induction l generalizing seen with
  | nil => simp [setDedup]
  | cons y ys ih =>
    by_cases hy : y ∈ seen
    · rw [setDedup, if_pos hy]; exact ih seen
    · rw [setDedup, if_neg hy]
      refine List.Nodup.cons ?_ (ih (y :: seen))
      intro hmem
      exact ((mem_setDedup y (y :: seen) ys).mp hmem).2 (List.mem_cons_self _ _)

theorem setDedup_of_nodup :
    ∀ (l seen : List String), l.Nodup → (∀ x ∈ l, x ∉ seen) →
      setDedup seen l = l := by
  intro l
  induction l with
  | nil => intro seen _ _; rfl
  | cons y ys ih =>
    intro seen hnd hdisj
    rw [setDedup, if_neg (hdisj y (List.mem_cons_self _ _))]
    congr 1
    refine ih (y :: seen) (List.Nodup.of_cons hnd) ?_
    intro x hx hmem
    rcases List.mem_cons.mp hmem with rfl | hmem'
    · exact (List.nodup_cons.mp hnd).1 hx
    · exact hdisj x (List.mem_cons_of_mem _ hx) hmem'

theorem pairwise_indexOf_setDedup :
    ∀ (l seen : List String),
      List.Pairwise (fun a b => l.indexOf a < l.indexOf b) (setDedup seen l) := by
  intro l
  induction l with
  | nil => intro seen; simp [setDedup]
  | cons y ys ih =>
    intro seen
    by_cases hy : y ∈ seen
    · rw [setDedup, if_pos hy]
      refine ((ih seen).imp_of_mem ?_)
      intro a b ha hb hab
      obtain ⟨_, hans⟩ := (mem_setDedup a seen ys).mp ha
      obtain ⟨_, hbns⟩ := (mem_setDedup b seen ys).mp hb
      have hay : a ≠ y := fun h => hans (h ▸ hy)
      have hby : b ≠ y := fun h => hbns (h ▸ hy)
      rw [List.indexOf_cons_ne _ hay.symm, List.indexOf_cons_ne _ hby.symm]
      omega
    · rw [setDedup, if_neg hy]
      refine List.Pairwise.cons ?_ (((ih (y :: seen)).imp_of_mem ?_))
      · intro b hb
        obtain ⟨_, hbns⟩ := (mem_setDedup b (y :: seen) ys).mp hb
        have hby : b ≠ y := fun h => hbns (h ▸ List.mem_cons_self _ _)
        rw [List.indexOf_cons_self, List.indexOf_cons_ne _ hby.symm]
        omega
      · intro a b ha hb hab
        obtain ⟨_, hans⟩ := (mem_setDedup a (y :: seen) ys).mp ha
        obtain ⟨_, hbns⟩ := (mem_setDedup b (y :: seen) ys).mp hb
        have hay : a ≠ y := fun h => hans (h ▸ List.mem_cons_self _ _)
        have hby : b ≠ y := fun h => hbns (h ▸ List.mem_cons_self _ _)
        rw [List.indexOf_cons_ne _ hay.symm, List.indexOf_cons_ne _ hby.symm]
        omega

/-! ### SERP analysis and the competitor analyzer
(src `serpAnalyzer.js`, `lib/backlinkAnalyzer.js`) -/

/-- One entry of the `serpData` built by `analyzeSERP`:
`{position: index + 1, url, title, displayUrl, snippet}`. -/
structure SerpPage where
  position : Nat
  url : String
  title : String
  displayUrl : String
  snippet : String
deriving DecidableEq

/-- The `searchResults.map((result, index) => ...)` of `analyzeSERP`, with
`i` the index of the first element. -/
def serpFormat : Nat → List SearchResult → List SerpPage
  | _, [] => []
  | i, r :: rs =>
    { position := i + 1, url := r.link, title := r.title,
      displayUrl := r.displayLink, snippet := r.snippet } :: serpFormat (i + 1) rs

/-- The function `analyzeSERP(keyword, numResults)`. -/
def analyzeSERP {ε : Type} (api : CseApi ε) (keyword : String)
    (numResults : Nat) : Except ε (List SerpPage) :=
  match searchGoogle api keyword numResults with
  | .error e => .error e
  | .ok rs => .ok (serpFormat 0 rs)

/-- The exact-phrase query built by `findBacklinksForUrl`. -/
def quoteQuery (url : String) : String := "\"" ++ url ++ "\""

/-- The function `findBacklinksForUrl(url, numResults)`: search for the quoted url and map
each result into a Backlink tagged with `targetUrl`. -/
def findBacklinksForUrl {ε : Type} (api : CseApi ε) (url : String)
    (numResults : Nat) : Except ε (List Backlink) :=
  match searchGoogle api (quoteQuery url) numResults with
  | .error e => .error e
  | .ok rs => .ok (rs.map fun r =>
      { sourceUrl := r.link, sourceTitle := r.title, targetUrl := url,
        snippet := r.snippet })

/-- One record of the `backlinksAnalysis` array. -/
structure BacklinksEntry where
  position : Nat
  url : String
  title : String
  backlinksCount : Nat
  uniqueDomainsCount : Nat
  backlinks : List Backlink
  uniqueDomains : List String
deriving DecidableEq

structure CompetitorAnalysis where
  keyword : String
  topPages : List SerpPage
  backlinksAnalysis : List BacklinksEntry
deriving DecidableEq

/-- The sequential `for (let i = 0; i < topPages.length; i++)` loop of
`analyzeTopRankingBacklinks`: one `findBacklinksForUrl` per ranked page, in
rank order; any error aborts and propagates. -/
def analyzeLoop {ε : Type} (api : CseApi ε)
    (parseHost : String → Option String) (maxB : Nat) :
    List SerpPage → Except ε (List BacklinksEntry)
  | [] => .ok []
  | page :: rest =>
    match findBacklinksForUrl api page.url maxB with
    | .error e => .error e
    | .ok backlinks =>
      let uniqueDomains := getUniqueReferringDomains parseHost backlinks
      match analyzeLoop api parseHost maxB rest with
      | .error e => .error e
      | .ok entries =>
        .ok ({ position := page.position, url := page.url, title := page.title,
               backlinksCount := backlinks.length,
               uniqueDomainsCount := uniqueDomains.length,
               backlinks := backlinks, uniqueDomains := uniqueDomains } :: entries)

/-- The function `analyzeTopRankingBacklinks(keyword, numResults, maxBacklinksPerUrl)`. -/
def analyzeTopRankingBacklinks {ε : Type} (api : CseApi ε)
    (parseHost : String → Option String) (keyword : String)
    (numResults maxB : Nat) : Except ε CompetitorAnalysis :=
  match analyzeSERP api keyword numResults with
  | .error e => .error e
  | .ok topPages =>
    match analyzeLoop api parseHost maxB topPages with
    | .error e => .error e
    | .ok ba =>
      .ok { keyword := keyword, topPages := topPages, backlinksAnalysis := ba }

theorem analyzeLoop_ok_maps {ε : Type} (api : CseApi ε)
    (parseHost : String → Option String) (maxB : Nat) :
    ∀ (pages : List SerpPage) (entries : List BacklinksEntry),
      analyzeLoop api parseHost maxB pages = Except.ok entries →
      entries.map (fun e => e.position) = pages.map (fun p => p.position) ∧
      entries.map (fun e => e.url) = pages.map (fun p => p.url) := by
  intro pages
  induction pages with
  | nil =>
    intro entries h
    simp only [analyzeLoop, Except.ok.injEq] at h
    subst h
    exact ⟨rfl, rfl⟩
  | cons page rest ih =>
    intro entries h
    simp only [analyzeLoop] at h
    cases hf : findBacklinksForUrl api page.url maxB with
    | error e =>
      rw [hf] at h
      exact Except.noConfusion h
    | ok backlinks =>
      rw [hf] at h
      cases hrec : analyzeLoop api parseHost maxB rest with
      | error e =>
        rw [hrec] at h
        exact Except.noConfusion h
      | ok entries' =>
        simp only [hrec, Except.ok.injEq] at h
        subst h
        obtain ⟨h1, h2⟩ := ih entries' hrec
        simp [List.map_cons, h1, h2]

theorem serpFormat_position :
    ∀ (i : Nat) (rs : List SearchResult),
      (serpFormat i rs).map (fun p => p.position) =
        List.range' (i + 1) rs.length := by
  intro i rs
  induction rs generalizing i with
  | nil => rfl
  | cons r rest ih =>
    simp only [serpFormat, List.map_cons, List.length_cons, List.range'_succ]
    rw [ih (i + 1)]

theorem serpFormat_url :
    ∀ (i : Nat) (rs : List SearchResult),
      (serpFormat i rs).map (fun p => p.url) = rs.map (fun r => r.link) := by
  intro i rs
  induction rs generalizing i with
  | nil => rfl
  | cons r rest ih =>
    simp only [serpFormat, List.map_cons]
    rw [ih (i + 1)]

/-! ### CSV export (src `lib/exporters.js`) -/

/-- JavaScript values as `exportToCsv` distinguishes them: arrays, objects,
and everything else ("primitive values are kept as is"). -/
inductive JsValue where
  | str (s : String)
  | num (n : Int)
  | boolean (b : Bool)
  | null
  | arr (xs : List JsValue)
  | obj (fields : List (String × JsValue))

/-! String coercion `String(el)` as used by `Array.prototype.join`: strings unchanged,
numbers printed, booleans `"true"`/`"false"`, `null` the empty string,
nested arrays joined with `","`, objects `"[object Object]"`. -/
mutual

def jsJoinStr : JsValue → String
  | .str s => s
  | .num n => toString n
  | .boolean b => if b then "true" else "false"
  | .null => ""
  | .arr xs => jsJoinListComma xs
  | .obj _ => "[object Object]"

def jsJoinListComma : List JsValue → String
  | [] => ""
  | [x] => jsJoinStr x
  | x :: y :: ys => jsJoinStr x ++ "," ++ jsJoinListComma (y :: ys)

end

/-! Stringification `JSON.stringify` restricted to the value shapes modelled here (string
escaping beyond quoting is not needed by any claim). -/
mutual

def jsonStringify : JsValue → String
  | .str s => "\"" ++ s ++ "\""
  | .num n => toString n
  | .boolean b => if b then "true" else "false"
  | .null => "null"
  | .arr xs => "[" ++ jsonStringifyList xs ++ "]"
  | .obj fs => "\x7b" ++ jsonStringifyFields fs ++ "\x7d"

def jsonStringifyList : List JsValue → String
  | [] => ""
  | [x] => jsonStringify x
  | x :: y :: ys => jsonStringify x ++ "," ++ jsonStringifyList (y :: ys)

def jsonStringifyFields : List (String × JsValue) → String
  | [] => ""
  | [kv] => "\"" ++ kv.1 ++ "\":" ++ jsonStringify kv.2
  | kv :: kv2 :: ys =>
    "\"" ++ kv.1 ++ "\":" ++ jsonStringify kv.2 ++ "," ++
      jsonStringifyFields (kv2 :: ys)

end

/-- The per-field processing of `exportToCsv`: arrays are joined with the
fixed delimiter "||", objects are stringified, primitives kept. -/
def processValue : JsValue → JsValue
  | .arr xs => .str (String.intercalate "||" (xs.map jsJoinStr))
  | .obj fs => .str (jsonStringify (.obj fs))
  | v => v

/-- Models `Object.keys(item)` together with the values: the fields of an object,
nothing for a non-object item. -/
def itemFields : JsValue → List (String × JsValue)
  | .obj fs => fs
  | _ => []

def processRecord (fields : List (String × JsValue)) : List (String × JsValue) :=
  fields.map fun kv => (kv.1, processValue kv.2)

/-- The function `exportToCsv(data, filename)` up to the file system: the validation, the
flattening pass and the header construction.  Returns the header ids and the
processed rows instead of writing them; the two `throw`s become `.error`
with the messages of the source. -/
def exportToCsv (data : JsValue) : Except String (List String × List (List (String × JsValue))) :=
  match data with
  | .arr items =>
    if items.length = 0 then .error "Cannot export empty data to CSV"
    else
      let processedData := items.map fun item => processRecord (itemFields item)
      let header := (processedData.headD []).map Prod.fst
      .ok (header, processedData)
  | _ => .error "Data must be an array for CSV export"

/-! ### URL categorization (src `src/modules/urlCategorizer.js`,
read through `dataExporter.js`) -/

def SOCIAL_MEDIA_DOMAINS : List String :=
  ["linkedin.com", "facebook.com", "twitter.com", "instagram.com",
   "pinterest.com", "reddit.com", "medium.com", "tumblr.com", "quora.com",
   "youtube.com", "tiktok.com", "snapchat.com", "threads.net", "flickr.com",
   "vimeo.com", "telegram.org", "whatsapp.com", "discord.com", "slack.com",
   "meetup.com"]

def CONTENT_PLATFORMS : List String :=
  ["wordpress.com", "blogger.com", "medium.com", "substack.com", "ghost.org",
   "wix.com", "squarespace.com", "weebly.com", "hubspot.com", "typepad.com"]

/-- Models the www-stripping replace on a hostname. -/
def stripWww (h : String) : String :=
  if chStarts "www.".toList h.toList then (h.toList.drop 4).asString else h

inductive Category where
  | social_media
  | content_platform
  | other
  | error
deriving DecidableEq

/-- The result object of `categorizeUrl`. -/
structure Categorization where
  url : String
  category : Category
  domain : String
  errMsg : Option String
deriving DecidableEq

/-- The function `categorizeUrl(url)`.  Here `hostOf` is the hostname given
by the URL parser of the host environment; an `Except.error e` models a thrown
exception, which the source catches into the error category. -/
def categorizeUrl (hostOf : String → Except String String) (url : String) :
    Categorization :=
  match hostOf url with
  | .error e => { url := url, category := .error, domain := "", errMsg := some e }
  | .ok h =>
    let hostname := stripWww h
    if SOCIAL_MEDIA_DOMAINS.any fun d => strContains hostname d then
      { url := url, category := .social_media, domain := hostname, errMsg := none }
    else if CONTENT_PLATFORMS.any fun d => strContains hostname d then
      { url := url, category := .content_platform, domain := hostname, errMsg := none }
    else
      { url := url, category := .other, domain := hostname, errMsg := none }

/-- A search result as consumed by `categorizeSearchResults`. -/
structure RawResult where
  link : String
  title : String
  snippet : String
  keyword : String
deriving DecidableEq

/-- The `enhancedResult` spread: categorization plus the search result data. -/
structure EnhancedResult where
  url : String
  category : Category
  domain : String
  errMsg : Option String
  title : String
  snippet : String
  keyword : String
deriving DecidableEq

structure Categories where
  social_media : List EnhancedResult
  content_platform : List EnhancedResult
  other : List EnhancedResult
  error : List EnhancedResult
deriving DecidableEq

/-- The push `categories[categorization.category].push(enhancedResult)`. -/
def pushCat (cats : Categories) (r : EnhancedResult) : Categories :=
  match r.category with
  | .social_media => { cats with social_media := cats.social_media ++ [r] }
  | .content_platform => { cats with content_platform := cats.content_platform ++ [r] }
  | .other => { cats with other := cats.other ++ [r] }
  | .error => { cats with error := cats.error ++ [r] }

def enhance (hostOf : String → Except String String) (result : RawResult) :
    EnhancedResult :=
  let c := categorizeUrl hostOf result.link
  { url := c.url, category := c.category, domain := c.domain,
    errMsg := c.errMsg, title := result.title, snippet := result.snippet,
    keyword := result.keyword }

/-- The function `categorizeSearchResults(searchResults)`: the `forEach`/push loop. -/
def categorizeSearchResults (hostOf : String → Except String String)
    (searchResults : List RawResult) : Categories :=
  searchResults.foldl (fun cats result => pushCat cats (enhance hostOf result))
    { social_media := [], content_platform := [], other := [], error := [] }

/-! ### Submission-opportunity analysis (src `src/modules/dataExporter.js`,
`analyzeSiteForSubmission`) -/

def SUBMISSION_URL_PATTERNS : List String :=
  ["/write-for-us", "/contribute", "/submission", "/submit", "/guest-post",
   "/write-with-us", "/contributors", "/guest-blogging", "/guest-contributor",
   "/authors", "/become-a-contributor", "/join-us", "/publish", "/guidelines"]

def SUBMISSION_KEYWORDS : List String :=
  ["write for us", "submit article", "guest post", "contribute",
   "become a contributor", "guest author", "submission guidelines",
   "content submission", "article submission", "become an author",
   "publish with us", "join our writers", "guest blogging",
   "submit your content", "write for", "author guidelines"]

/-- The parts of a fetched homepage `analyzeSiteForSubmission` inspects. -/
structure SitePage where
  anchors : List Anchor
  bodyText : String
  formCount : Nat
  generatorContent : Option String
  hasWpApiLink : Bool
deriving DecidableEq

/-- The result object of `analyzeSiteForSubmission`. -/
structure SubmissionAnalysis where
  url : String
  domain : String
  acceptsSubmissions : Bool
  confidence : Nat
  submissionPageUrls : List String
  submissionKeywordsFound : List String
  notes : List String
deriving DecidableEq

/-- The mutable parts of `result` while the anchor/keyword loops run. -/
structure SubAcc where
  confidence : Nat
  submissionPageUrls : List String
  submissionKeywordsFound : List String
  notes : List String
deriving DecidableEq

def strStarts (s pre : String) : Bool := chStarts pre.toList s.toList

/-- The pattern text variant: every slash or dash replaced by a space, then trimmed. -/
def patternLinkText (p : String) : String :=
  strTrim ((p.toList.map fun c => if c = '/' ∨ c = '-' then ' ' else c).asString)

/-- The `fullUrl` computation for a matched submission link. -/
def fullUrlFor (baseUrl href : String) : String :=
  if strStarts href "/" then baseUrl ++ href
  else if !(strStarts href "http") then baseUrl ++ "/" ++ href
  else href

def applyPattern (baseUrl href linkText : String) (st : SubAcc) (p : String) :
    SubAcc :=
  if strContains href p || strContains linkText (patternLinkText p) then
    let fullUrl := fullUrlFor baseUrl href
    if fullUrl ∈ st.submissionPageUrls then st
    else { st with submissionPageUrls := st.submissionPageUrls ++ [fullUrl],
                   confidence := st.confidence + 20 }
  else st

def applyLinkKeyword (linkText : String) (st : SubAcc) (kw : String) : SubAcc :=
  if strContains linkText kw then
    if kw ∈ st.submissionKeywordsFound then st
    else { st with
            submissionKeywordsFound := st.submissionKeywordsFound ++ [kw],
            confidence := st.confidence + 15 }
  else st

/-- One iteration of the anchor loop of `analyzeSiteForSubmission`: skip
anchors with a falsy `href` (absent or empty), otherwise run the pattern
loop then the keyword loop. -/
def processSiteAnchor (baseUrl : String) (st : SubAcc) (a : Anchor) : SubAcc :=
  match a.href with
  | none => st
  | some href =>
    if href = "" then st
    else
      let linkText := strTrim (strLower a.text)
      let st1 := SUBMISSION_URL_PATTERNS.foldl (applyPattern baseUrl href linkText) st
      SUBMISSION_KEYWORDS.foldl (applyLinkKeyword linkText) st1

def applyBodyKeyword (pageText : String) (st : SubAcc) (kw : String) : SubAcc :=
  if strContains pageText kw then
    if kw ∈ st.submissionKeywordsFound then st
    else { st with
            submissionKeywordsFound := st.submissionKeywordsFound ++ [kw],
            confidence := st.confidence + 10 }
  else st

/-- The function `analyzeSiteForSubmission(url)`.  Here `purl` is the host `url-parse` library
(protocol and hostname), `fetch` the `axios.get` oracle; a fetch `.error`
takes the catch branch of the source. -/
def analyzeSiteForSubmission (purl : String → String × String)
    (fetch : String → Except String SitePage) (url : String) :
    SubmissionAnalysis :=
  let parsed := purl url
  let baseUrl := parsed.1 ++ "//" ++ parsed.2
  match fetch url with
  | .error e =>
    { url := url, domain := parsed.2, acceptsSubmissions := false,
      confidence := 0, submissionPageUrls := [], submissionKeywordsFound := [],
      notes := ["Error during analysis: " ++ e] }
  | .ok page =>
    let st0 : SubAcc :=
      { confidence := 0, submissionPageUrls := [],
        submissionKeywordsFound := [], notes := [] }
    let st1 := page.anchors.foldl (processSiteAnchor baseUrl) st0
    let pageText := strLower page.bodyText
    let st2 := SUBMISSION_KEYWORDS.foldl (applyBodyKeyword pageText) st1
    let hasContactForm := decide (0 < page.formCount) &&
      (strContains pageText "contact" || strContains pageText "message" ||
        strContains pageText "email")
    let st3 :=
      if hasContactForm then
        { st2 with
            notes := st2.notes ++ ["Has contact form that might be used for submissions"],
            confidence := st2.confidence + 5 }
      else st2
    let hasWordPress :=
      (match page.generatorContent with
       | some g => strContains g "WordPress"
       | none => false) || page.hasWpApiLink
    let st4 :=
      if hasWordPress then
        { st3 with
            notes := st3.notes ++ ["WordPress site (more likely to accept submissions)"],
            confidence := st3.confidence + 10 }
      else st3
    let capped := min st4.confidence 100
    let accepts := decide (30 ≤ capped)
    let finalNotes :=
      if accepts then st4.notes ++ ["Confidence level: " ++ toString capped ++ "%"]
      else st4.notes ++ ["No clear submission opportunities found"]
    { url := url, domain := parsed.2, acceptsSubmissions := accepts,
      confidence := capped, submissionPageUrls := st4.submissionPageUrls,
      submissionKeywordsFound := st4.submissionKeywordsFound,
      notes := finalNotes }

/-! ## Claim theorems -/

/-- C1: for every fetch oracle, target and positive window size (the source
default is `maxConcurrent = 5`), `verifyBacklinks` returns an output whose
length equals the input length and whose records correspond to the input
backlinks in the same relative order (the i-th output record carries the
i-th input backlink), for all inputs — including when every fetch fails,
since `verifyOne` never drops a record; and for the empty input it returns
the empty list with an empty fetch trace (no page fetch performed). -/
theorem C1_verifyBacklinks_preserves_input (fetch : Fetcher) (t : String)
    (c : Nat) (hc : 1 ≤ c) (bs : List Backlink) :
    ((verifyBacklinks fetch bs t c).1).length = bs.length ∧
    (verifyBacklinks fetch bs t c).1.map VerifiedBacklink.source = bs ∧
    verifyBacklinks fetch [] t c = ([], []) := by
  rw [verifyBacklinks_eq_map fetch bs t c hc,
    verifyBacklinks_eq_map fetch [] t c hc]
  refine ⟨by simp, ?_, by simp⟩
  simp [List.map_map, Function.comp_def, verifyOne_source]

def w1fetch : Fetcher := fun _ =>
  .err { message := "timeout of 5000ms exceeded", responseStatus := none }

def w1a : Backlink :=
  { sourceUrl := "https://a.example/p", sourceTitle := "a",
    targetUrl := "https://t.example", snippet := "sa" }

def w1b : Backlink :=
  { sourceUrl := "https://b.example/q", sourceTitle := "b",
    targetUrl := "https://t.example", snippet := "sb" }

/-- Witness for C1: two backlinks whose fetches both fail, window size 5. -/
theorem C1_witness :
    1 ≤ 5 ∧
    (((verifyBacklinks w1fetch [w1a, w1b] "https://t.example" 5).1).length =
        ([w1a, w1b] : List Backlink).length ∧
      (verifyBacklinks w1fetch [w1a, w1b] "https://t.example" 5).1.map
        VerifiedBacklink.source = [w1a, w1b] ∧
      verifyBacklinks w1fetch [] "https://t.example" 5 = ([], [])) :=
  ⟨by decide,
    C1_verifyBacklinks_preserves_input w1fetch "https://t.example" 5 (by decide)
      [w1a, w1b]⟩

/-- C3 counterexample: the claim says an errored fetch yields a record with
an *empty links list*.  In the catch branch of the source the object is built
without a `links` key at all, so the field is `undefined` (`none` in the
embedding), not the empty list: for a concrete backlink whose fetch throws,
the unique output record has `links = none`, which differs from `some []`. -/
theorem C3_counterexample :
    (verifyBacklinks (fun _ => FetchOutcome.err
        { message := "socket hang up", responseStatus := none })
      [{ sourceUrl := "https://blog.example/post", sourceTitle := "post",
         targetUrl := "https://target.example/", snippet := "s" }]
      "https://target.example/" 5).1.map VerifiedBacklink.links = [none] ∧
    [(none : Option (List LinkRecord))] ≠ [some []] := by
  exact ⟨rfl, by decide⟩

/-- C3 (amended): for every backlink whose page fetch raises an exception,
`verifyBacklinks` produces a record with `verified = false`, `statusCode`
equal to the HTTP status carried by the exception (or 0 when none), and the
error message recorded; the record keeps its input position and is never
dropped.  The `links` field, however, is absent (`none`) rather than an
empty list. -/
theorem C3_fetch_error_record (fetch : Fetcher) (t : String) (c : Nat)
    (hc : 1 ≤ c) (bs : List Backlink) (b : Backlink) (e : FetchFailure)
    (hf : fetch b.sourceUrl = FetchOutcome.err e) :
    verifyOne fetch (bareHost t) b =
      { source := b, verified := false, links := none,
        statusCode := e.responseStatus.getD 0, error := some e.message } ∧
    (verifyBacklinks fetch bs t c).1 = bs.map (verifyOne fetch (bareHost t)) ∧
    (b ∈ bs →
      { source := b, verified := false, links := none,
        statusCode := e.responseStatus.getD 0, error := some e.message } ∈
        (verifyBacklinks fetch bs t c).1) := by
  have h1 : verifyOne fetch (bareHost t) b =
      { source := b, verified := false, links := none,
        statusCode := e.responseStatus.getD 0, error := some e.message } := by
    unfold verifyOne
    rw [hf]
  refine ⟨h1, ?_, ?_⟩
  · rw [verifyBacklinks_eq_map fetch bs t c hc]
  · intro hb
    rw [verifyBacklinks_eq_map fetch bs t c hc]
    exact h1 ▸ List.mem_map_of_mem _ hb

def c3wfetch : Fetcher := fun url =>
  if url = "https://down.example/page" then
    FetchOutcome.err { message := "Request failed with status code 503",
                       responseStatus := some 503 }
  else
    FetchOutcome.ok { status := 200, anchors := [] }

def c3wb : Backlink :=
  { sourceUrl := "https://down.example/page", sourceTitle := "down",
    targetUrl := "https://t.example", snippet := "s" }

/-- Witness for C3 (amended): a backlink whose fetch throws with a carried
HTTP status 503. -/
theorem C3_witness :
    1 ≤ 5 ∧
    c3wfetch c3wb.sourceUrl = FetchOutcome.err
      { message := "Request failed with status code 503",
        responseStatus := some 503 } ∧
    (verifyOne c3wfetch (bareHost "https://t.example") c3wb =
      { source := c3wb, verified := false, links := none, statusCode := 503,
        error := some "Request failed with status code 503" } ∧
    (verifyBacklinks c3wfetch [c3wb] "https://t.example" 5).1 =
      [c3wb].map (verifyOne c3wfetch (bareHost "https://t.example")) ∧
    (c3wb ∈ [c3wb] →
      { source := c3wb, verified := false, links := none, statusCode := 503,
        error := some "Request failed with status code 503" } ∈
        (verifyBacklinks c3wfetch [c3wb] "https://t.example" 5).1)) :=
  ⟨by decide, by decide,
    C3_fetch_error_record c3wfetch "https://t.example" 5 (by decide) [c3wb]
      c3wb
      { message := "Request failed with status code 503",
        responseStatus := some 503 }
      (by decide)⟩

def c6fetch : Fetcher := fun _ =>
  FetchOutcome.ok
    { status := 200,
      anchors := [{ href := some "https://target.example/foo",
                    rel := some "nofollow", text := "Click" }] }

def c6b : Backlink :=
  { sourceUrl := "https://source.example/page", sourceTitle := "src",
    targetUrl := "target.example", snippet := "s" }

/-- C6: verifying target "target.example" against a fetched page whose only
anchor is `<a href="https://target.example/foo" rel="nofollow">Click</a>`
yields a record with exactly one links entry, that entry having
`isNofollow = true`, and `verified = true`. -/
theorem C6_nofollow_anchor_verified :
    (verifyBacklinks c6fetch [c6b] "target.example" 5).1 =
      [{ source := c6b, verified := true,
         links := some [{ href := "https://target.example/foo",
                          anchorText := "Click", isNofollow := true }],
         statusCode := 200, error := none }] := by
  rfl

def c2cItem : CseItem :=
  { title := "t", link := "https://r.example", snippet := "s",
    displayLink := "r.example" }

def c2api : CseApi String := fun _q start _num =>
  if start = 1 then Except.ok (List.replicate 7 c2cItem)
  else if start = 11 then Except.ok (List.replicate 10 c2cItem)
  else Except.ok []

/-- C2 counterexample: with `numResults = 20`, an API whose first page
answers 7 items — fewer than the 10 requested — does not make the client
stop early: the client still issues the second call (`start = 11`).  The
source breaks out of the paging loop only when a page returns zero items,
not when it returns fewer than requested. -/
theorem C2_counterexample :
    (searchGoogleLogs c2api "q" 20).map
      (fun r => r.2.map fun l => (l.start, l.num, l.items.length)) =
      Except.ok [(1, 10, 7), (11, 10, 10)] ∧ (7 : Nat) < 10 := by
  exact ⟨rfl, by decide⟩

/-- C2 (amended): for every `numResults = N` and any API whose pages never
exceed the requested size, `searchGoogle` returns at most N results, in API
rank order (the output is exactly the concatenation of the returned pages,
formatted); each call k uses `start = k*10 + 1` and requests
`num = min(10, N - collectedSoFar)`; and the number of page calls is exactly
`ceil(N/10)` unless a page returned zero items, in which case pagination
stopped there (early stop happens only on an empty page, not on a merely
short page). -/
theorem C2_search_paging {ε : Type} (api : CseApi ε) (q : String) (N : Nat)
    (hbound : ∀ s n items, api q s n = Except.ok items → items.length ≤ n)
    (res : List SearchResult) (logs : List CallLog)
    (hok : searchGoogleLogs api q N = Except.ok (res, logs)) :
    searchGoogle api q N = Except.ok res ∧
    res.length ≤ N ∧
    res = ((logs.map CallLog.items).flatten).map formatItem ∧
    (∀ k (hk : k < logs.length),
      (logs.get ⟨k, hk⟩).start = k * 10 + 1 ∧
      (logs.get ⟨k, hk⟩).num =
        min 10 (N - ((logs.take k).map CallLog.items).flatten.length)) ∧
    (logs.length = (N + 9) / 10 ∨ ∃ l, logs.getLast? = some l ∧ l.items = []) := by
  obtain ⟨h1, h2, h3, h4⟩ := searchGoogleLogs_spec api q N hbound res logs hok
  refine ⟨?_, h1, h2, h3, h4⟩
  unfold searchGoogle
  rw [hok]

def c2wItem : CseItem :=
  { title := "w", link := "https://w.example", snippet := "ws",
    displayLink := "w.example" }

def c2wapi : CseApi String := fun _ _ num =>
  Except.ok (List.replicate (min num 10) c2wItem)

def c2wRes : List SearchResult := List.replicate 20 (formatItem c2wItem)

def c2wLogs : List CallLog :=
  [{ start := 1, num := 10, items := List.replicate 10 c2wItem },
   { start := 11, num := 10, items := List.replicate 10 c2wItem }]

/-- Witness for C2 (amended): N = 20 against an API with full pages. -/
theorem C2_witness :
    searchGoogle c2wapi "w" 20 = Except.ok c2wRes ∧
    c2wRes.length ≤ 20 ∧
    c2wRes = ((c2wLogs.map CallLog.items).flatten).map formatItem ∧
    (∀ k (hk : k < c2wLogs.length),
      (c2wLogs.get ⟨k, hk⟩).start = k * 10 + 1 ∧
      (c2wLogs.get ⟨k, hk⟩).num =
        min 10 (20 - ((c2wLogs.take k).map CallLog.items).flatten.length)) ∧
    (c2wLogs.length = (20 + 9) / 10 ∨
      ∃ l, c2wLogs.getLast? = some l ∧ l.items = []) :=
  C2_search_paging c2wapi "w" 20
    (fun s n items h => by
      simp only [c2wapi, Except.ok.injEq] at h
      rw [← h]
      simp [Nat.min_le_left])
    c2wRes c2wLogs rfl

/-- C4: for every URL-parsing oracle and every backlink list,
`getUniqueReferringDomains` is idempotent in the only well-typed sense (its
input is a backlink list and its output a hostname list): re-applying the
uniquing pass of the function to its output returns it unchanged, and the
output carries no duplicates; duplicate hostnames in the input never produce
duplicates in the output; a hostname is in the output exactly when the
`sourceUrl` of some backlink parses to it, so unparseable `sourceUrl`s are skipped
(the function is total — the catch branch is `parseHost` returning `none`);
and the output preserves first-seen order: the positions of first occurrence
in the parsed hostname sequence are strictly increasing along the output. -/
theorem C4_unique_domains (parseHost : String → Option String)
    (bs : List Backlink) :
    setDedup [] (getUniqueReferringDomains parseHost bs) =
      getUniqueReferringDomains parseHost bs ∧
    (getUniqueReferringDomains parseHost bs).Nodup ∧
    (∀ d, d ∈ getUniqueReferringDomains parseHost bs ↔
      ∃ b ∈ bs, parseHost b.sourceUrl = some d) ∧
    List.Pairwise
      (fun a b =>
        (bs.filterMap fun x => parseHost x.sourceUrl).indexOf a <
          (bs.filterMap fun x => parseHost x.sourceUrl).indexOf b)
      (getUniqueReferringDomains parseHost bs) := by
  unfold getUniqueReferringDomains
  refine ⟨setDedup_of_nodup _ _ (nodup_setDedup _ _) (by simp),
    nodup_setDedup _ _, ?_, pairwise_indexOf_setDedup _ _⟩
  intro d
  rw [mem_setDedup]
  simp [List.mem_filterMap]

/-- C5: when the SERP search for keyword `k` with `numResults = 3` yields
three results, a successful `analyzeTopRankingBacklinks` produces a
`backlinksAnalysis` whose positions are `[1, 2, 3]` in that order and whose
urls equal the urls of the SERP results at the corresponding 1-based ranks. -/
theorem C5_top3_positions {ε : Type} (api : CseApi ε)
    (parseHost : String → Option String) (k : String) (maxB : Nat)
    (A : CompetitorAnalysis) (rs : List SearchResult)
    (hA : analyzeTopRankingBacklinks api parseHost k 3 maxB = Except.ok A)
    (hs : searchGoogle api k 3 = Except.ok rs) (hlen : rs.length = 3) :
    A.backlinksAnalysis.map (fun e => e.position) = [1, 2, 3] ∧
    A.backlinksAnalysis.map (fun e => e.url) = rs.map (fun r => r.link) := by
  simp only [analyzeTopRankingBacklinks, analyzeSERP, hs] at hA
  cases hl : analyzeLoop api parseHost maxB (serpFormat 0 rs) with
  | error e =>
    rw [hl] at hA
    exact Except.noConfusion hA
  | ok entries =>
    rw [hl] at hA
    simp only [Except.ok.injEq] at hA
    subst hA
    obtain ⟨hp, hu⟩ := analyzeLoop_ok_maps api parseHost maxB _ entries hl
    constructor
    · show entries.map (fun e => e.position) = [1, 2, 3]
      rw [hp, serpFormat_position, hlen]
      rfl
    · show entries.map (fun e => e.url) = rs.map (fun r => r.link)
      rw [hu, serpFormat_url]

def c5item1 : CseItem :=
  { title := "p1", link := "https://one.example/", snippet := "s1",
    displayLink := "one.example" }

def c5item2 : CseItem :=
  { title := "p2", link := "https://two.example/", snippet := "s2",
    displayLink := "two.example" }

def c5item3 : CseItem :=
  { title := "p3", link := "https://three.example/", snippet := "s3",
    displayLink := "three.example" }

def c5api : CseApi String := fun q _ _ =>
  if q = "lean" then Except.ok [c5item1, c5item2, c5item3] else Except.ok []

def c5rs : List SearchResult :=
  [formatItem c5item1, formatItem c5item2, formatItem c5item3]

def c5entry (pos : Nat) (url title : String) : BacklinksEntry :=
  { position := pos, url := url, title := title, backlinksCount := 0,
    uniqueDomainsCount := 0, backlinks := [], uniqueDomains := [] }

def c5A : CompetitorAnalysis :=
  { keyword := "lean", topPages := serpFormat 0 c5rs,
    backlinksAnalysis :=
      [c5entry 1 "https://one.example/" "p1",
       c5entry 2 "https://two.example/" "p2",
       c5entry 3 "https://three.example/" "p3"] }

/-- Witness for C5: keyword "lean", three SERP results,
`maxBacklinksPerUrl = 0` so each per-page backlink search succeeds with an
empty list. -/
theorem C5_witness :
    c5A.backlinksAnalysis.map (fun e => e.position) = [1, 2, 3] ∧
    c5A.backlinksAnalysis.map (fun e => e.url) = c5rs.map (fun r => r.link) :=
  C5_top3_positions c5api (fun _ => none) "lean" 0 c5A c5rs rfl rfl rfl

/-- C7: if the SERP step succeeds, the backlink searches for the ranked
pages before some page all succeed, and the backlink search for that page
fails, then `analyzeTopRankingBacklinks` fails with that same error — the
whole analysis is aborted and the error propagated unchanged, rather than
the failing page being skipped. -/
theorem C7_backlink_failure_propagates {ε : Type} (api : CseApi ε)
    (parseHost : String → Option String) (k : String) (n maxB : Nat)
    (pre : List SerpPage) (page : SerpPage) (rest : List SerpPage) (e : ε)
    (hserp : analyzeSERP api k n = Except.ok (pre ++ page :: rest))
    (hpre : ∀ q ∈ pre, ∃ bs, findBacklinksForUrl api q.url maxB = Except.ok bs)
    (hfail : findBacklinksForUrl api page.url maxB = Except.error e) :
    analyzeTopRankingBacklinks api parseHost k n maxB = Except.error e := by
  have hloop : ∀ (pre' : List SerpPage),
      (∀ q ∈ pre', ∃ bs, findBacklinksForUrl api q.url maxB = Except.ok bs) →
      analyzeLoop api parseHost maxB (pre' ++ page :: rest) = Except.error e := by
    intro pre'
    induction pre' with
    | nil =>
      intro _
      simp only [List.nil_append, analyzeLoop, hfail]
    | cons q pre'' ih =>
      intro hpre'
      obtain ⟨bs, hq⟩ := hpre' q (List.mem_cons_self _ _)
      have ihh := ih fun r hr => hpre' r (List.mem_cons_of_mem _ hr)
      simp only [List.cons_append, analyzeLoop, hq, List.append_eq, ihh]
  unfold analyzeTopRankingBacklinks
  rw [hserp]
  simp only [hloop pre hpre]

def c7api : CseApi String := fun q _ _ =>
  if q = "kw" then
    Except.ok [{ title := "t1", link := "https://one.example/",
                 snippet := "s1", displayLink := "one.example" }]
  else Except.error "API rate limit exceeded"

/-- Witness for C7: the keyword search succeeds with one ranked page and the
backlink search for that page fails; the whole analysis fails with the same
error. -/
theorem C7_witness :
    analyzeTopRankingBacklinks c7api (fun _ => none) "kw" 10 5 =
      Except.error "API rate limit exceeded" :=
  C7_backlink_failure_propagates c7api (fun _ => none) "kw" 10 5 []
    { position := 1, url := "https://one.example/", title := "t1",
      displayUrl := "one.example", snippet := "s1" }
    [] "API rate limit exceeded" rfl
    (fun q hq => absurd hq (List.not_mem_nil q)) rfl

/-- C8 counterexample: the claim says `exportToCsv` fails when the data is
not a *homogeneous* record sequence.  A non-empty array of records with
different keys (first record key "a", second key "b") is not homogeneous,
yet the export succeeds — the header is simply taken from the first record. -/
theorem C8_counterexample :
    exportToCsv (JsValue.arr [JsValue.obj [("a", JsValue.num 1)],
        JsValue.obj [("b", JsValue.num 2)]]) =
      Except.ok (["a"], [[("a", JsValue.num 1)], [("b", JsValue.num 2)]]) ∧
    (["a"] : List String) ≠ ["b"] := by
  exact ⟨rfl, by decide⟩

/-- C8 (amended): `exportToCsv` fails exactly when the data is not an array
or is the empty array — a non-empty heterogeneous record sequence is
exported, with the header taken from the keys of the first record; each row
is the input record with array-valued fields joined into a single string
with the fixed delimiter "||" and object-valued fields stringified. -/
theorem C8_export_flattening (items : List JsValue) (hne : items ≠ []) :
    exportToCsv (JsValue.arr items) =
      Except.ok
        (((items.map fun it => processRecord (itemFields it)).headD []).map
          Prod.fst,
         items.map fun it => processRecord (itemFields it)) ∧
    exportToCsv (JsValue.arr []) =
      Except.error "Cannot export empty data to CSV" ∧
    (∀ v : JsValue, (∀ xs, v ≠ JsValue.arr xs) →
      exportToCsv v = Except.error "Data must be an array for CSV export") ∧
    (∀ it k xs, it ∈ items → (k, JsValue.arr xs) ∈ itemFields it →
      (k, JsValue.str (String.intercalate "||" (xs.map jsJoinStr))) ∈
        processRecord (itemFields it)) ∧
    (∀ it k fs, it ∈ items → (k, JsValue.obj fs) ∈ itemFields it →
      (k, JsValue.str (jsonStringify (JsValue.obj fs))) ∈
        processRecord (itemFields it)) := by
  refine ⟨?_, rfl, ?_, ?_, ?_⟩
  · have hnz : ¬ items.length = 0 := fun h => hne (List.length_eq_zero.mp h)
    simp only [exportToCsv, if_neg hnz]
  · intro v hv
    cases v with
    | arr xs => exact absurd rfl (hv xs)
    | str s => rfl
    | num n => rfl
    | boolean b => rfl
    | null => rfl
    | obj fs => rfl
  · intro it k xs _ hmem
    exact List.mem_map_of_mem (fun kv => (kv.1, processValue kv.2)) hmem
  · intro it k fs _ hmem
    exact List.mem_map_of_mem (fun kv => (kv.1, processValue kv.2)) hmem

def c8rec : List (String × JsValue) :=
  [("tags", JsValue.arr [JsValue.str "x", JsValue.str "y"]),
   ("meta", JsValue.obj [("k", JsValue.str "v")]),
   ("n", JsValue.num 3)]

/-- Witness for C8 (amended): a one-record list whose fields include an
array value and an object value. -/
theorem C8_witness :
    ([JsValue.obj c8rec] : List JsValue) ≠ [] ∧
    (exportToCsv (JsValue.arr [JsValue.obj c8rec]) =
      Except.ok
        ((([JsValue.obj c8rec].map fun it =>
            processRecord (itemFields it)).headD []).map Prod.fst,
         [JsValue.obj c8rec].map fun it => processRecord (itemFields it)) ∧
    exportToCsv (JsValue.arr []) =
      Except.error "Cannot export empty data to CSV" ∧
    (∀ v : JsValue, (∀ xs, v ≠ JsValue.arr xs) →
      exportToCsv v = Except.error "Data must be an array for CSV export") ∧
    (∀ it k xs, it ∈ ([JsValue.obj c8rec] : List JsValue) →
      (k, JsValue.arr xs) ∈ itemFields it →
      (k, JsValue.str (String.intercalate "||" (xs.map jsJoinStr))) ∈
        processRecord (itemFields it)) ∧
    (∀ it k fs, it ∈ ([JsValue.obj c8rec] : List JsValue) →
      (k, JsValue.obj fs) ∈ itemFields it →
      (k, JsValue.str (jsonStringify (JsValue.obj fs))) ∈
        processRecord (itemFields it))) :=
  ⟨List.cons_ne_nil _ _,
    C8_export_flattening [JsValue.obj c8rec] (List.cons_ne_nil _ _)⟩

/-- The bucket of a `Categories` object selected by a category value. -/
def bucketOf (cats : Categories) : Category → List EnhancedResult
  | .social_media => cats.social_media
  | .content_platform => cats.content_platform
  | .other => cats.other
  | .error => cats.error

def catsSize (cats : Categories) : Nat :=
  cats.social_media.length + cats.content_platform.length +
    cats.other.length + cats.error.length

/-- Every element of every bucket has the category of its bucket. -/
def CatsOK (cats : Categories) : Prop :=
  ∀ c r, r ∈ bucketOf cats c → r.category = c

theorem catsSize_push (cats : Categories) (r : EnhancedResult) :
    catsSize (pushCat cats r) = catsSize cats + 1 := by
  unfold pushCat
  cases r.category <;> simp [catsSize] <;> omega

theorem catsOK_push (cats : Categories) (r : EnhancedResult)
    (h : CatsOK cats) : CatsOK (pushCat cats r) := by
  intro c x hx
  unfold pushCat at hx
  cases hr : r.category <;> rw [hr] at hx <;> cases c <;>
    simp only [bucketOf, List.mem_append, List.mem_singleton] at hx <;>
    first
      | exact h _ x hx
      | (rcases hx with hx | rfl
         · exact h _ x hx
         · exact hr)

theorem mem_bucketOf_push_self (cats : Categories) (r : EnhancedResult) :
    r ∈ bucketOf (pushCat cats r) r.category := by
  unfold pushCat
  cases r.category <;> simp [bucketOf]

theorem mem_bucketOf_push_mono (cats : Categories) (x y : EnhancedResult)
    (c : Category) (h : x ∈ bucketOf cats c) :
    x ∈ bucketOf (pushCat cats y) c := by
  unfold pushCat
  cases y.category <;> cases c <;> simp_all [bucketOf, List.mem_append]

theorem catsFold_size (hostOf : String → Except String String) :
    ∀ (rs : List RawResult) (init : Categories),
      catsSize (rs.foldl (fun cats result =>
        pushCat cats (enhance hostOf result)) init) =
        catsSize init + rs.length := by
  intro rs
  induction rs with
  | nil => intro init; simp
  | cons r rest ih =>
    intro init
    simp only [List.foldl_cons, List.length_cons, ih, catsSize_push]
    omega

theorem catsFold_ok (hostOf : String → Except String String) :
    ∀ (rs : List RawResult) (init : Categories), CatsOK init →
      CatsOK (rs.foldl (fun cats result =>
        pushCat cats (enhance hostOf result)) init) := by
  intro rs
  induction rs with
  | nil => intro init h; exact h
  | cons r rest ih =>
    intro init h
    exact ih _ (catsOK_push _ _ h)

theorem catsFold_mono (hostOf : String → Except String String) :
    ∀ (rs : List RawResult) (init : Categories) (x : EnhancedResult)
      (c : Category), x ∈ bucketOf init c →
      x ∈ bucketOf (rs.foldl (fun cats result =>
        pushCat cats (enhance hostOf result)) init) c := by
  intro rs
  induction rs with
  | nil => intro init x c h; exact h
  | cons r rest ih =>
    intro init x c h
    exact ih _ x c (mem_bucketOf_push_mono _ _ _ _ h)

theorem catsFold_assigns (hostOf : String → Except String String) :
    ∀ (rs : List RawResult) (init : Categories) (r : RawResult), r ∈ rs →
      enhance hostOf r ∈
        bucketOf (rs.foldl (fun cats result =>
          pushCat cats (enhance hostOf result)) init)
          (enhance hostOf r).category := by
  intro rs
  induction rs with
  | nil => intro init r h; exact absurd h (List.not_mem_nil r)
  | cons q rest ih =>
    intro init r h
    rcases List.mem_cons.mp h with rfl | h'
    · exact catsFold_mono hostOf rest _ _ _ (mem_bucketOf_push_self init _)
    · exact ih _ r h'

/-- C9: `categorizeSearchResults` partitions its input.  `categorizeUrl`
is total (never throws — a parse exception is the `.error` outcome of the
`hostOf` oracle, caught into the `error` category) and by construction
returns one of the four category values; every input result is assigned to
the bucket of its category; each bucket contains only records of its own
category; and the four bucket lengths sum to the input length. -/
theorem C9_categorize_partition (hostOf : String → Except String String)
    (rs : List RawResult) :
    ((categorizeSearchResults hostOf rs).social_media.length +
      (categorizeSearchResults hostOf rs).content_platform.length +
      (categorizeSearchResults hostOf rs).other.length +
      (categorizeSearchResults hostOf rs).error.length = rs.length) ∧
    (∀ c r, r ∈ bucketOf (categorizeSearchResults hostOf rs) c →
      r.category = c) ∧
    (∀ r ∈ rs, enhance hostOf r ∈
      bucketOf (categorizeSearchResults hostOf rs)
        (categorizeUrl hostOf r.link).category) := by
  refine ⟨?_, ?_, ?_⟩
  · have h := catsFold_size hostOf rs
      { social_media := [], content_platform := [], other := [], error := [] }
    simpa [categorizeSearchResults, catsSize] using h
  · exact catsFold_ok hostOf rs _ (fun c r hr => by cases c <;> simp [bucketOf] at hr)
  · intro r hr
    exact catsFold_assigns hostOf rs _ r hr

/-- C10: every record returned by `analyzeSiteForSubmission` — including the
catch-branch record built when the fetch throws — satisfies
`0 ≤ confidence ≤ 100` (the confidence is a sum of non-negative increments
capped by `Math.min(·, 100)`) and
`acceptsSubmissions = (confidence ≥ 30)`, where `confidence` is the final,
capped value also stored in the record. -/
theorem C10_submission_invariant (purl : String → String × String)
    (fetch : String → Except String SitePage) (url : String) :
    0 ≤ (analyzeSiteForSubmission purl fetch url).confidence ∧
    (analyzeSiteForSubmission purl fetch url).confidence ≤ 100 ∧
    ((analyzeSiteForSubmission purl fetch url).acceptsSubmissions = true ↔
      30 ≤ (analyzeSiteForSubmission purl fetch url).confidence) := by
  unfold analyzeSiteForSubmission
  cases hf : fetch url with
  | error e => simp
  | ok page => simp [Nat.min_le_right, decide_eq_true_iff]

end GoogleScrapper
